import Mathlib

/-!
Verification development for the BDTBench ROOT-to-XGBoost conversion core
(`root2xgboost.h` / `root2xgboost.cpp`).

Modelling conventions:
* `Float_t` values are modelled by `ℚ` (exact arithmetic; the program only
  stores copied values, integer-derived weights and the constants 0/1, so no
  rounding behaviour is relevant to the stated properties).
* A ROOT `TTree` viewed through `RDataFrame` is a row count plus a map from
  branch names to columns of values, every column having the row count as its
  length (`RDataFrame::Count` / `Take`).
* Calls into the XGBoost C API are modelled as an explicit call trace
  (`List XgbCall`) plus an `Except` result; the library itself is an oracle
  (`XgbLib`) assigning a status code to every call, exactly as the
  `safe_xgboost` macro observes it.
* C++ unsigned integer division by zero (undefined behaviour, in practice a
  fatal trap) is modelled as the dedicated fatal outcome `TwoTreeError.divByZero`.
-/

namespace BDTBench

abbrev Float_t := ℚ

/-! ### Generic list lemmas used by the matrix / label / weight loops -/

theorem getD_set {α : Type} (l : List α) (i j : Nat) (v d : α) :
    (l.set i v).getD j d = if i = j ∧ j < l.length then v else l.getD j d := by
  induction l generalizing i j with
  | nil => simp
  | cons a l ih =>
    cases i with
    | zero =>
      cases j with
      | zero => simp
      | succ j => simp
    | succ i =>
      cases j with
      | zero => simp
      | succ j =>
        simp only [List.set_cons_succ, List.getD_cons_succ, ih, List.length_cons]
        by_cases h : i = j ∧ j < l.length
        · rw [if_pos h, if_pos (by omega)]
        · rw [if_neg h, if_neg (by omega)]

theorem getD_replicate {α : Type} (n i : Nat) (a d : α) :
    (List.replicate n a).getD i d = if i < n then a else d := by
  induction n generalizing i with
  | zero => simp
  | succ n ih =>
    cases i with
    | zero => simp [List.replicate_succ]
    | succ i =>
      rw [List.replicate_succ, List.getD_cons_succ, ih]
      by_cases h : i < n
      · rw [if_pos h, if_pos (by omega)]
      · rw [if_neg h, if_neg (by omega)]

theorem getD_map_of_lt {α β : Type} (f : α → β) (l : List α) (i : Nat) (dA : α) (dB : β)
    (h : i < l.length) : (l.map f).getD i dB = f (l.getD i dA) := by
  induction l generalizing i with
  | nil => simp at h
  | cons a l ih =>
    cases i with
    | zero => simp
    | succ i =>
      simp only [List.map_cons, List.getD_cons_succ]
      exact ih i (by simpa using h)

/-! ### The label/weight filling loops of the TTree adapter

`for(Long64_t k = lo; k < lo + cnt; k++){ arr[k] = v; }` writing into a
preallocated array. -/

def setRange (l : List Float_t) (lo cnt : Nat) (v : Float_t) : List Float_t :=
  match cnt with
  | 0 => l
  | c + 1 => setRange (l.set lo v) (lo + 1) c v

theorem length_setRange (cnt : Nat) : ∀ (l : List Float_t) (lo : Nat) (v : Float_t),
    (setRange l lo cnt v).length = l.length := by
  induction cnt with
  | zero => intro l lo v; rfl
  | succ c ih =>
    intro l lo v
    simp only [setRange, ih, List.length_set]

theorem getD_setRange (cnt : Nat) : ∀ (l : List Float_t) (lo : Nat) (v : Float_t) (i : Nat),
    (setRange l lo cnt v).getD i 0 =
      if lo ≤ i ∧ i < lo + cnt ∧ i < l.length then v else l.getD i 0 := by
  induction cnt with
  | zero =>
    intro l lo v i
    simp only [setRange]
    rw [if_neg]
    omega
  | succ c ih =>
    intro l lo v i
    simp only [setRange]
    rw [ih, getD_set, List.length_set]
    by_cases h1 : lo + 1 ≤ i ∧ i < lo + 1 + c ∧ i < l.length
    · rw [if_pos h1, if_pos (by omega)]
    · rw [if_neg h1]
      by_cases h2 : lo = i ∧ i < l.length
      · rw [if_pos h2, if_pos (by omega)]
      · rw [if_neg h2, if_neg (by omega)]

/-! ### TTree model and the column-major matrix filling loop -/

/-- A ROOT `TTree` as seen through `RDataFrame`: a row count (`Count()`) and a
map from branch names to columns (`Take<Float_t>(var)`), every column having
the row count as its length. -/
structure TTree where
  n : Nat
  branch : String → List Float_t
  hlen : ∀ v, (branch v).length = n

/-- Read entry (i, j) of the 2-dimensional buffer `sb_mat`. -/
def getM (mat : List (List Float_t)) (i j : Nat) : Float_t :=
  (mat.getD i []).getD j 0

/-- `sb_mat[i][j] = v`. -/
def setM (mat : List (List Float_t)) (i j : Nat) (v : Float_t) : List (List Float_t) :=
  mat.set i ((mat.getD i []).set j v)

/-- The inner loops of the TTree adapter: write the successive entries of one
column `col` into matrix column `j`, starting at row `s`
(`for(auto v : col){ sb_mat[i][j] = v; i++; }` with `i` starting at `s`). -/
def writeCol (mat : List (List Float_t)) (j s : Nat) (col : List Float_t) :
    List (List Float_t) :=
  match col with
  | [] => mat
  | v :: rest => writeCol (setM mat s j v) j (s + 1) rest

/-- The outer loop of the TTree adapter: for each remaining variable (current
column index `j`), write the signal column starting at row 0, then the
background column starting where the signal column ended. -/
def fillVars (sig bgd : TTree) (vars : List String) (j : Nat)
    (mat : List (List Float_t)) : List (List Float_t) :=
  match vars with
  | [] => mat
  | v :: rest =>
    fillVars sig bgd rest (j + 1)
      (writeCol (writeCol mat j 0 (sig.branch v)) j (sig.branch v).length (bgd.branch v))

/-- The fully populated `sb_mat` buffer of the TTree adapter. -/
def buildMat (sig bgd : TTree) (vars : List String) : List (List Float_t) :=
  fillVars sig bgd vars 0
    (List.replicate (sig.n + bgd.n) (List.replicate vars.length 0))

theorem length_setM (mat : List (List Float_t)) (i j : Nat) (v : Float_t) :
    (setM mat i j v).length = mat.length := by
  simp [setM]

theorem rowlen_setM (mat : List (List Float_t)) (i j i2 : Nat) (v : Float_t) :
    ((setM mat i j v).getD i2 []).length = (mat.getD i2 []).length := by
  unfold setM
  rw [getD_set]
  by_cases h : i = i2 ∧ i2 < mat.length
  · rw [if_pos h, List.length_set, h.1]
  · rw [if_neg h]

theorem getM_setM (mat : List (List Float_t)) (i j i2 j2 : Nat) (v : Float_t) :
    getM (setM mat i j v) i2 j2 =
      if i = i2 ∧ i2 < mat.length ∧ j = j2 ∧ j2 < (mat.getD i2 []).length then v
      else getM mat i2 j2 := by
  unfold getM setM
  rw [getD_set]
  by_cases h1 : i = i2 ∧ i2 < mat.length
  · rw [if_pos h1]
    obtain ⟨rfl, h2⟩ := h1
    rw [getD_set]
    by_cases h3 : j = j2 ∧ j2 < (mat.getD i []).length
    · rw [if_pos h3, if_pos ⟨rfl, h2, h3⟩]
    · rw [if_neg h3, if_neg (by tauto)]
  · rw [if_neg h1, if_neg (by tauto)]

theorem length_writeCol (col : List Float_t) :
    ∀ (mat : List (List Float_t)) (j s : Nat),
      (writeCol mat j s col).length = mat.length := by
  induction col with
  | nil => intro mat j s; rfl
  | cons v rest ih => intro mat j s; simp only [writeCol, ih, length_setM]

theorem rowlen_writeCol (col : List Float_t) :
    ∀ (mat : List (List Float_t)) (j s i2 : Nat),
      ((writeCol mat j s col).getD i2 []).length = (mat.getD i2 []).length := by
  induction col with
  | nil => intro mat j s i2; rfl
  | cons v rest ih => intro mat j s i2; simp only [writeCol, ih, rowlen_setM]

theorem getM_writeCol (col : List Float_t) :
    ∀ (mat : List (List Float_t)) (j s i2 j2 : Nat),
      getM (writeCol mat j s col) i2 j2 =
        if j = j2 ∧ s ≤ i2 ∧ i2 < s + col.length ∧ i2 < mat.length ∧
            j2 < (mat.getD i2 []).length then
          col.getD (i2 - s) 0
        else getM mat i2 j2 := by
  induction col with
  | nil =>
    intro mat j s i2 j2
    simp only [writeCol, List.length_nil]
    rw [if_neg (by omega)]
  | cons v rest ih =>
    intro mat j s i2 j2
    simp only [writeCol]
    rw [ih, length_setM, rowlen_setM, getM_setM]
    by_cases h1 : j = j2 ∧ s + 1 ≤ i2 ∧ i2 < s + 1 + rest.length ∧ i2 < mat.length ∧
        j2 < (mat.getD i2 []).length
    · rw [if_pos h1, if_pos (by simp only [List.length_cons]; omega)]
      have : i2 - s = (i2 - (s + 1)) + 1 := by omega
      rw [this, List.getD_cons_succ]
    · rw [if_neg h1]
      by_cases h2 : s = i2 ∧ i2 < mat.length ∧ j = j2 ∧ j2 < (mat.getD i2 []).length
      · rw [if_pos h2, if_pos (by simp only [List.length_cons]; omega)]
        have : i2 - s = 0 := by omega
        rw [this, List.getD_cons_zero]
      · rw [if_neg h2]
        rw [if_neg (by simp only [List.length_cons]; omega)]

theorem getM_fillVars (sig bgd : TTree) (vars : List String) :
    ∀ (j : Nat) (mat : List (List Float_t)) (i2 j2 : Nat),
      mat.length = sig.n + bgd.n →
      (∀ i, i < mat.length → (mat.getD i []).length = j + vars.length) →
      getM (fillVars sig bgd vars j mat) i2 j2 =
        if j ≤ j2 ∧ j2 < j + vars.length ∧ i2 < sig.n + bgd.n then
          (if i2 < sig.n then (sig.branch (vars.getD (j2 - j) "")).getD i2 0
           else (bgd.branch (vars.getD (j2 - j) "")).getD (i2 - sig.n) 0)
        else getM mat i2 j2 := by
  induction vars with
  | nil =>
    intro j mat i2 j2 hL hR
    simp only [fillVars, List.length_nil]
    rw [if_neg (by omega)]
  | cons v rest ih =>
    intro j mat i2 j2 hL hR
    simp only [fillVars]
    have hslen : (sig.branch v).length = sig.n := sig.hlen v
    have hblen : (bgd.branch v).length = bgd.n := bgd.hlen v
    set m1 := writeCol mat j 0 (sig.branch v) with hm1
    set m2 := writeCol m1 j (sig.branch v).length (bgd.branch v) with hm2
    have hL1 : m1.length = sig.n + bgd.n := by rw [hm1, length_writeCol, hL]
    have hL2 : m2.length = sig.n + bgd.n := by rw [hm2, length_writeCol, hL1]
    have hR1 : ∀ i, (m1.getD i []).length = (mat.getD i []).length := by
      intro i; rw [hm1, rowlen_writeCol]
    have hR2 : ∀ i, (m2.getD i []).length = (mat.getD i []).length := by
      intro i; rw [hm2, rowlen_writeCol, hR1]
    have hRcons : ∀ i, i < mat.length → (mat.getD i []).length = j + rest.length + 1 := by
      intro i hi
      have h := hR i hi
      simp only [List.length_cons] at h
      omega
    have hRm2 : ∀ i, i < m2.length → (m2.getD i []).length = (j + 1) + rest.length := by
      intro i hi
      rw [hR2 i]
      have := hRcons i (by omega)
      omega
    rw [ih (j + 1) m2 i2 j2 hL2 hRm2]
    simp only [List.length_cons]
    by_cases hrec : j + 1 ≤ j2 ∧ j2 < (j + 1) + rest.length ∧ i2 < sig.n + bgd.n
    · have hc : j ≤ j2 ∧ j2 < j + (rest.length + 1) ∧ i2 < sig.n + bgd.n := by omega
      rw [if_pos hrec, if_pos hc]
      have hidx : j2 - j = (j2 - (j + 1)) + 1 := by omega
      rw [hidx, List.getD_cons_succ]
    · rw [if_neg hrec]
      by_cases hj : j2 = j ∧ i2 < sig.n + bgd.n
      · -- the column written in this step
        obtain ⟨rfl, hi2⟩ := hj
        have hc : j2 ≤ j2 ∧ j2 < j2 + (rest.length + 1) ∧ i2 < sig.n + bgd.n := by omega
        rw [if_pos hc]
        have hz : j2 - j2 = 0 := by omega
        rw [hz, List.getD_cons_zero]
        have hrow : (mat.getD i2 []).length = j2 + rest.length + 1 := hRcons i2 (by omega)
        by_cases hsig : i2 < sig.n
        · rw [if_pos hsig]
          rw [hm2, getM_writeCol]
          rw [if_neg (by omega)]
          rw [hm1, getM_writeCol]
          have hc2 : j2 = j2 ∧ 0 ≤ i2 ∧ i2 < 0 + (sig.branch v).length ∧ i2 < mat.length ∧
              j2 < (mat.getD i2 []).length := by
            refine ⟨rfl, by omega, by omega, by omega, by omega⟩
          rw [if_pos hc2, Nat.sub_zero]
        · rw [if_neg hsig]
          rw [hm2, getM_writeCol]
          have hc2 : j2 = j2 ∧ (sig.branch v).length ≤ i2 ∧
              i2 < (sig.branch v).length + (bgd.branch v).length ∧ i2 < m1.length ∧
              j2 < (m1.getD i2 []).length := by
            refine ⟨rfl, by omega, by omega, by omega, ?_⟩
            rw [hR1]; omega
          rw [if_pos hc2, hslen]
      · -- untouched entry
        have hc : ¬ (j ≤ j2 ∧ j2 < j + (rest.length + 1) ∧ i2 < sig.n + bgd.n) := by omega
        rw [if_neg hc]
        rw [hm2, getM_writeCol, hm1, getM_writeCol]
        by_cases hcol : j = j2
        · -- same column, but the row is out of the written ranges
          have hout : ¬ i2 < sig.n + bgd.n := by omega
          rw [if_neg (by rw [hL1]; omega), if_neg (by omega)]
        · rw [if_neg (by tauto), if_neg (by tauto)]

/-- Entry (i, j) of the assembled feature matrix, for a signal row. -/
theorem getM_buildMat_signal (sig bgd : TTree) (vars : List String) (i j : Nat)
    (hi : i < sig.n) (hj : j < vars.length) :
    getM (buildMat sig bgd vars) i j = (sig.branch (vars.getD j "")).getD i 0 := by
  unfold buildMat
  rw [getM_fillVars sig bgd vars 0 _ i j (by simp)
    (by intro i hi
        rw [List.length_replicate] at hi
        rw [getD_replicate, if_pos hi, List.length_replicate, Nat.zero_add])]
  rw [if_pos ⟨Nat.zero_le _, by omega, by omega⟩, if_pos hi, Nat.sub_zero]

/-- Entry (i, j) of the assembled feature matrix, for a background row. -/
theorem getM_buildMat_background (sig bgd : TTree) (vars : List String) (i j : Nat)
    (hi1 : sig.n ≤ i) (hi2 : i < sig.n + bgd.n) (hj : j < vars.length) :
    getM (buildMat sig bgd vars) i j = (bgd.branch (vars.getD j "")).getD (i - sig.n) 0 := by
  unfold buildMat
  rw [getM_fillVars sig bgd vars 0 _ i j (by simp)
    (by intro i hi
        rw [List.length_replicate] at hi
        rw [getD_replicate, if_pos hi, List.length_replicate, Nat.zero_add])]
  rw [if_pos ⟨Nat.zero_le _, by omega, hi2⟩, if_neg (by omega), Nat.sub_zero]

deriving instance DecidableEq for Except

/-! ### Model of the XGBoost C API surface used by the program -/

/-- One call into the XGBoost C API, with the data the program passes to it.
`DMatrixHandle` and `BoosterHandle` are opaque pointers, modelled as `Nat` ids. -/
inductive XgbCall where
  | dmatrixCreateFromMat (matData : List Float_t) (nrow ncol : Nat) (missing : Float_t)
  | dmatrixSetFloatInfo (dm : Nat) (field : String) (info : List Float_t) (len : Nat)
  | boosterCreate (dmats : List Nat) (len : Nat)
  | boosterSetParam (b : Nat) (name value : String)
  | boosterUpdateOneIter (b : Nat) (iter : Nat) (dm : Nat)
  | dmatrixFree (dm : Nat)
  deriving DecidableEq

/-- The textual form of a call, as produced by the `#call` stringification in
the `safe_xgboost` macro. -/
def callText : XgbCall → String
  | .dmatrixCreateFromMat .. => "XGDMatrixCreateFromMat((Float_t*) sb_mat, n_rows, n_vars, 0, &((data->sb_dmats)[0]))"
  | .dmatrixSetFloatInfo .. => "XGDMatrixSetFloatInfo((data->sb_dmats)[0], \"label\", data->labels, n_rows)"
  | .boosterCreate .. => "XGBoosterCreate(data->sb_dmats, 1, &booster)"
  | .boosterSetParam .. => "XGBoosterSetParam(booster, opt.first, opt.second)"
  | .boosterUpdateOneIter .. => "XGBoosterUpdateOneIter(booster, iter, (data->sb_dmats)[0])"
  | .dmatrixFree .. => "XGDMatrixFree(sb_dmats[0])"

/-- The external library as an oracle: a status code for every call, the string
returned by `XGBGetLastError`, and the opaque handles it hands out. -/
structure XgbLib where
  status : XgbCall → Int
  lastError : String
  dmatHandle : Nat
  boosterHandle : Nat

/-- The error thrown by the `safe_xgboost` macro: source location, the failing
call, and the library's last-error string at the time of the failure. -/
structure XgbError where
  loc : String
  call : XgbCall
  lastError : String
  deriving DecidableEq

/-- The message of the thrown `runtime_error`:
`std::string(__FILE__) + ":" + std::to_string(__LINE__) + ": error in " + #call + ":" + XGBGetLastError()`. -/
def XgbError.message (e : XgbError) : String :=
  e.loc ++ ": error in " ++ callText e.call ++ ":" ++ e.lastError

/-- The `safe_xgboost` macro: perform one library call, and if its status is
non-zero throw a `runtime_error` carrying the call's text and the library's
last-error string. -/
def safe_xgboost (lib : XgbLib) (loc : String) (c : XgbCall) : Except XgbError Unit :=
  if lib.status c ≠ 0 then .error ⟨loc, c, lib.lastError⟩ else .ok ()

/-- The `xgboost_data` bundle: the (single) DMatrix handle, the weight and
label arrays, and the two row counts. -/
structure XgbData where
  sb_dmats : List Nat
  weights : List Float_t
  labels : List Float_t
  n_sig : Nat
  n_bgd : Nat
  deriving DecidableEq

/-! ### The TTree (two-tree) adapter -/

/-- Resolution of one class weight in the TTree adapter: if the caller passed
a weight use it, otherwise compute the balanced weight
`1.0 + (other / self)` with truncating unsigned integer division. A null
result marks the case `self = 0`, where the C++ division is an unsigned
division by zero (undefined behaviour, in practice a fatal trap). -/
def balancedOrGiven (given : Option Float_t) (other self : Nat) : Option Float_t :=
  match given with
  | some w => some w
  | none => if self = 0 then none else some (1 + ((other / self : Nat) : Float_t))

/-- The label array of the TTree adapter: allocated with `s + b` slots, then
`labels[k] = 0.0` for `k < s` and `labels[k] = 1.0` for `s ≤ k < s + b`. -/
def labelsTT (s b : Nat) : List Float_t :=
  setRange (setRange (List.replicate (s + b) 0) 0 s 0) s b 1

/-- The weight array of the TTree adapter: `weights[k] = sw` for `k < s` and
`weights[k] = bw` for `s ≤ k < s + b`. -/
def weightsTT (s b : Nat) (sw bw : Float_t) : List Float_t :=
  setRange (setRange (List.replicate (s + b) 0) 0 s sw) s b bw

/-- Errors of the TTree adapter: the fatal unsigned division by zero in the
balanced-weight expression, or a thrown `safe_xgboost` error. -/
inductive TwoTreeError where
  | divByZero
  | xgb (e : XgbError)
  deriving DecidableEq

/-- `ROOTToXGBoost(TTree&, TTree&, vector<string>&, const Float_t*, const Float_t*)`:
build `sb_mat` column by column (signal rows first, then background rows),
resolve the two class weights, fill the label and weight arrays, then create
the DMatrix from the flattened buffer and attach the labels under `"label"`.
Returns the trace of library calls together with the result. -/
def ROOTToXGBoostTT (lib : XgbLib) (sig bgd : TTree) (vars : List String)
    (sig_weight bgd_weight : Option Float_t) :
    List XgbCall × Except TwoTreeError XgbData :=
  match balancedOrGiven sig_weight bgd.n sig.n with
  | none => ([], .error .divByZero)
  | some sw =>
    match balancedOrGiven bgd_weight sig.n bgd.n with
    | none => ([], .error .divByZero)
    | some bw =>
      match safe_xgboost lib "root2xgboost.cpp:71"
          (.dmatrixCreateFromMat (buildMat sig bgd vars).flatten (sig.n + bgd.n)
            vars.length 0) with
      | .error e =>
        ([.dmatrixCreateFromMat (buildMat sig bgd vars).flatten (sig.n + bgd.n) vars.length 0],
         .error (.xgb e))
      | .ok _ =>
        match safe_xgboost lib "root2xgboost.cpp:72"
            (.dmatrixSetFloatInfo lib.dmatHandle "label" (labelsTT sig.n bgd.n)
              (sig.n + bgd.n)) with
        | .error e =>
          ([.dmatrixCreateFromMat (buildMat sig bgd vars).flatten (sig.n + bgd.n) vars.length 0,
            .dmatrixSetFloatInfo lib.dmatHandle "label" (labelsTT sig.n bgd.n) (sig.n + bgd.n)],
           .error (.xgb e))
        | .ok _ =>
          ([.dmatrixCreateFromMat (buildMat sig bgd vars).flatten (sig.n + bgd.n) vars.length 0,
            .dmatrixSetFloatInfo lib.dmatHandle "label" (labelsTT sig.n bgd.n) (sig.n + bgd.n)],
           .ok ⟨[lib.dmatHandle], weightsTT sig.n bgd.n sw bw, labelsTT sig.n bgd.n,
                sig.n, bgd.n⟩)

/-- Eliminator for a successful TTree-adapter run: both class weights resolved
and the returned bundle is exactly the one assembled from them. -/
theorem ROOTToXGBoostTT_ok {lib : XgbLib} {sig bgd : TTree} {vars : List String}
    {sig_weight bgd_weight : Option Float_t} {d : XgbData}
    (h : (ROOTToXGBoostTT lib sig bgd vars sig_weight bgd_weight).2 = .ok d) :
    ∃ sw bw, balancedOrGiven sig_weight bgd.n sig.n = some sw ∧
      balancedOrGiven bgd_weight sig.n bgd.n = some bw ∧
      d = ⟨[lib.dmatHandle], weightsTT sig.n bgd.n sw bw, labelsTT sig.n bgd.n,
           sig.n, bgd.n⟩ := by
  unfold ROOTToXGBoostTT at h
  split at h
  · simp at h
  case _ sw hsw =>
    split at h
    · simp at h
    case _ bw hbw =>
      split at h
      · simp at h
      · split at h
        · simp at h
        · simp only [Except.ok.injEq] at h
          exact ⟨sw, bw, hsw, hbw, h.symm⟩

theorem length_labelsTT (s b : Nat) : (labelsTT s b).length = s + b := by
  unfold labelsTT
  rw [length_setRange, length_setRange, List.length_replicate]

theorem getD_labelsTT_sig (s b k : Nat) (hk : k < s) : (labelsTT s b).getD k 0 = 0 := by
  unfold labelsTT
  rw [getD_setRange, getD_setRange]
  simp only [length_setRange, List.length_replicate]
  rw [if_neg (by omega), if_pos (by omega)]

theorem getD_labelsTT_bgd (s b k : Nat) (hk1 : s ≤ k) (hk2 : k < s + b) :
    (labelsTT s b).getD k 0 = 1 := by
  unfold labelsTT
  rw [getD_setRange]
  simp only [length_setRange, List.length_replicate]
  rw [if_pos (by omega)]

theorem length_weightsTT (s b : Nat) (sw bw : Float_t) :
    (weightsTT s b sw bw).length = s + b := by
  unfold weightsTT
  rw [length_setRange, length_setRange, List.length_replicate]

theorem getD_weightsTT_sig (s b k : Nat) (sw bw : Float_t) (hk : k < s) :
    (weightsTT s b sw bw).getD k 0 = sw := by
  unfold weightsTT
  rw [getD_setRange, getD_setRange]
  simp only [length_setRange, List.length_replicate]
  rw [if_neg (by omega), if_pos (by omega)]

theorem getD_weightsTT_bgd (s b k : Nat) (sw bw : Float_t) (hk1 : s ≤ k)
    (hk2 : k < s + b) : (weightsTT s b sw bw).getD k 0 = bw := by
  unfold weightsTT
  rw [getD_setRange]
  simp only [length_setRange, List.length_replicate]
  rw [if_pos (by omega)]

/-- C1: in the two-tree adapter, signal rows occupy matrix rows
`0 .. n_signal - 1`, background rows occupy rows
`n_signal .. n_signal + n_background - 1`, and the label vector of the
returned bundle is `0.0` on `[0, n_signal)` and `1.0` on
`[n_signal, n_signal + n_background)`. -/
theorem twoTree_layout (lib : XgbLib) (sig bgd : TTree) (vars : List String)
    (sig_weight bgd_weight : Option Float_t) (d : XgbData)
    (h : (ROOTToXGBoostTT lib sig bgd vars sig_weight bgd_weight).2 = .ok d) :
    (∀ i j, i < sig.n → j < vars.length →
      getM (buildMat sig bgd vars) i j = (sig.branch (vars.getD j "")).getD i 0) ∧
    (∀ i j, sig.n ≤ i → i < sig.n + bgd.n → j < vars.length →
      getM (buildMat sig bgd vars) i j = (bgd.branch (vars.getD j "")).getD (i - sig.n) 0) ∧
    d.labels.length = sig.n + bgd.n ∧
    (∀ i, i < sig.n → d.labels.getD i 0 = 0) ∧
    (∀ i, sig.n ≤ i → i < sig.n + bgd.n → d.labels.getD i 0 = 1) := by
  obtain ⟨sw, bw, hsw, hbw, rfl⟩ := ROOTToXGBoostTT_ok h
  refine ⟨?_, ?_, ?_, ?_, ?_⟩
  · intro i j hi hj
    exact getM_buildMat_signal sig bgd vars i j hi hj
  · intro i j hi1 hi2 hj
    exact getM_buildMat_background sig bgd vars i j hi1 hi2 hj
  · exact length_labelsTT sig.n bgd.n
  · intro i hi
    exact getD_labelsTT_sig sig.n bgd.n i hi
  · intro i hi1 hi2
    exact getD_labelsTT_bgd sig.n bgd.n i hi1 hi2

theorem sigWeight_of_none {lib : XgbLib} {sig bgd : TTree} {vars : List String}
    {ow : Option Float_t} {d : XgbData}
    (h : (ROOTToXGBoostTT lib sig bgd vars none ow).2 = .ok d) (k : Nat)
    (hk : k < sig.n) : d.weights.getD k 0 = 1 + ((bgd.n / sig.n : Nat) : Float_t) := by
  obtain ⟨sw, bw, hsw, hbw, rfl⟩ := ROOTToXGBoostTT_ok h
  simp only [balancedOrGiven] at hsw
  split at hsw
  · exact absurd hsw (by simp)
  · simp only [Option.some.injEq] at hsw
    simp only []
    rw [getD_weightsTT_sig sig.n bgd.n k sw bw hk, ← hsw]

theorem bgdWeight_of_none {lib : XgbLib} {sig bgd : TTree} {vars : List String}
    {ow : Option Float_t} {d : XgbData}
    (h : (ROOTToXGBoostTT lib sig bgd vars ow none).2 = .ok d) (k : Nat)
    (hk1 : sig.n ≤ k) (hk2 : k < sig.n + bgd.n) :
    d.weights.getD k 0 = 1 + ((sig.n / bgd.n : Nat) : Float_t) := by
  obtain ⟨sw, bw, hsw, hbw, rfl⟩ := ROOTToXGBoostTT_ok h
  simp only [balancedOrGiven] at hbw
  split at hbw
  · exact absurd hbw (by simp)
  · simp only [Option.some.injEq] at hbw
    simp only []
    rw [getD_weightsTT_bgd sig.n bgd.n k sw bw hk1 hk2, ← hbw]

/-- C2: in the two-tree adapter, when the signal (resp. background) weight
argument is null, every signal row's weight is `1 + (n_background / n_signal)`
and every background row's weight is `1 + (n_signal / n_background)`, the
ratio being a truncating integer division widened to float afterwards. -/
theorem twoTree_balanced_weights (lib : XgbLib) (sig bgd : TTree)
    (vars : List String) (ow : Option Float_t) (d : XgbData) :
    ((ROOTToXGBoostTT lib sig bgd vars none ow).2 = .ok d →
      ∀ k, k < sig.n → d.weights.getD k 0 = 1 + ((bgd.n / sig.n : Nat) : Float_t)) ∧
    ((ROOTToXGBoostTT lib sig bgd vars ow none).2 = .ok d →
      ∀ k, sig.n ≤ k → k < sig.n + bgd.n →
        d.weights.getD k 0 = 1 + ((sig.n / bgd.n : Nat) : Float_t)) :=
  ⟨fun h k hk => sigWeight_of_none h k hk,
   fun h k hk1 hk2 => bgdWeight_of_none h k hk1 hk2⟩

/-- C4: in the two-tree adapter, a non-null supplied signal (resp. background)
weight `W` makes every signal (resp. background) row's weight exactly `W`,
independent of the class sizes. -/
theorem twoTree_explicit_weights (lib : XgbLib) (sig bgd : TTree)
    (vars : List String) (W : Float_t) (ow : Option Float_t) (d : XgbData) :
    ((ROOTToXGBoostTT lib sig bgd vars (some W) ow).2 = .ok d →
      ∀ k, k < sig.n → d.weights.getD k 0 = W) ∧
    ((ROOTToXGBoostTT lib sig bgd vars ow (some W)).2 = .ok d →
      ∀ k, sig.n ≤ k → k < sig.n + bgd.n → d.weights.getD k 0 = W) := by
  constructor
  · intro h k hk
    obtain ⟨sw, bw, hsw, hbw, rfl⟩ := ROOTToXGBoostTT_ok h
    simp only [balancedOrGiven, Option.some.injEq] at hsw
    simp only []
    rw [getD_weightsTT_sig sig.n bgd.n k sw bw hk, ← hsw]
  · intro h k hk1 hk2
    obtain ⟨sw, bw, hsw, hbw, rfl⟩ := ROOTToXGBoostTT_ok h
    simp only [balancedOrGiven, Option.some.injEq] at hbw
    simp only []
    rw [getD_weightsTT_bgd sig.n bgd.n k sw bw hk1 hk2, ← hbw]

/-- C10: with a null signal weight and an empty signal tree the balanced-weight
expression performs an unsigned integer division by zero (and symmetrically
for the background side); with `n_signal > 0` and `n_background > 0` the
division-by-zero outcome is unreachable. -/
theorem twoTree_division_by_zero (lib : XgbLib) (sig bgd : TTree)
    (vars : List String) (sw0 bw0 : Option Float_t) :
    (sig.n = 0 → (ROOTToXGBoostTT lib sig bgd vars none bw0).2 = .error .divByZero) ∧
    (bgd.n = 0 → (ROOTToXGBoostTT lib sig bgd vars sw0 none).2 = .error .divByZero) ∧
    (0 < sig.n → 0 < bgd.n →
      (ROOTToXGBoostTT lib sig bgd vars sw0 bw0).2 ≠ .error .divByZero) := by
  refine ⟨?_, ?_, ?_⟩
  · intro hs
    unfold ROOTToXGBoostTT
    simp [balancedOrGiven, hs]
  · intro hb
    unfold ROOTToXGBoostTT
    cases sw0 with
    | none =>
      by_cases hs : sig.n = 0
      · simp [balancedOrGiven, hb, hs]
      · simp [balancedOrGiven, hb, hs]
    | some w =>
      simp [balancedOrGiven, hb]
  · intro hs hb
    unfold ROOTToXGBoostTT
    have hsw : ∃ w, balancedOrGiven sw0 bgd.n sig.n = some w := by
      cases sw0 with
      | none => exact ⟨_, by simp only [balancedOrGiven]; rw [if_neg (by omega)]⟩
      | some w => exact ⟨w, rfl⟩
    have hbw : ∃ w, balancedOrGiven bw0 sig.n bgd.n = some w := by
      cases bw0 with
      | none => exact ⟨_, by simp only [balancedOrGiven]; rw [if_neg (by omega)]⟩
      | some w => exact ⟨w, rfl⟩
    obtain ⟨w1, hw1⟩ := hsw
    obtain ⟨w2, hw2⟩ := hbw
    rw [hw1, hw2]
    split
    next heq => exact Option.noConfusion heq
    next bw1 heq =>
      split
      next heq2 => exact Option.noConfusion heq2
      next bw2 heq2 =>
        split
        · simp
        · split
          · simp
          · simp

/-- Arithmetic core of the corrected balanced-weight bound: with truncating
integer division, `|(1 + b/s)*s - (1 + s/b)*b| = |s % b - b % s| ≤ min s b`. -/
theorem balanced_bound_arith (s b : Nat) (hs : 0 < s) (hb : 0 < b) :
    |(1 + ((b / s : Nat) : ℚ)) * s - (1 + ((s / b : Nat) : ℚ)) * b| ≤
      min (s : ℚ) (b : ℚ) := by
  have hdm1 : (b / s) * s + b % s = b := Nat.div_add_mod' b s
  have hdm2 : (s / b) * b + s % b = s := Nat.div_add_mod' s b
  have e1 : ((b / s : Nat) : ℚ) * s = (b : ℚ) - ((b % s : Nat) : ℚ) := by
    have h := congrArg (Nat.cast : Nat → ℚ) hdm1
    push_cast at h
    linarith
  have e2 : ((s / b : Nat) : ℚ) * b = (s : ℚ) - ((s % b : Nat) : ℚ) := by
    have h := congrArg (Nat.cast : Nat → ℚ) hdm2
    push_cast at h
    linarith
  have key : (1 + ((b / s : Nat) : ℚ)) * s - (1 + ((s / b : Nat) : ℚ)) * b =
      ((s % b : Nat) : ℚ) - ((b % s : Nat) : ℚ) := by
    have : (1 + ((b / s : Nat) : ℚ)) * s = (s : ℚ) + ((b / s : Nat) : ℚ) * s := by ring
    have h2 : (1 + ((s / b : Nat) : ℚ)) * b = (b : ℚ) + ((s / b : Nat) : ℚ) * b := by ring
    rw [this, h2, e1, e2]
    ring
  rw [key]
  have h1 : ((s % b : Nat) : ℚ) ≤ min (s : ℚ) (b : ℚ) := by
    rw [le_min_iff]
    constructor
    · exact_mod_cast Nat.mod_le s b
    · exact_mod_cast Nat.le_of_lt (Nat.mod_lt s hb)
  have h2 : ((b % s : Nat) : ℚ) ≤ min (s : ℚ) (b : ℚ) := by
    rw [le_min_iff]
    constructor
    · exact_mod_cast Nat.le_of_lt (Nat.mod_lt b hs)
    · exact_mod_cast Nat.mod_le b s
  have h3 : (0 : ℚ) ≤ ((s % b : Nat) : ℚ) := Nat.cast_nonneg _
  have h4 : (0 : ℚ) ≤ ((b % s : Nat) : ℚ) := Nat.cast_nonneg _
  rw [abs_sub_le_iff]
  constructor <;> linarith

/-! ### Concrete inputs used for witnesses and counterexamples -/

/-- A library oracle on which every call succeeds. -/
def libOK : XgbLib := ⟨fun _ => 0, "mock-last-error", 5, 9⟩

def treeA : TTree := ⟨2, fun _ => [1, 2], fun _ => rfl⟩

def treeB : TTree := ⟨3, fun _ => [4, 5, 6], fun _ => rfl⟩

def tree0 : TTree := ⟨0, fun _ => [], fun _ => rfl⟩

def tree3 : TTree := ⟨3, fun _ => [1, 1, 1], fun _ => rfl⟩

def tree4 : TTree := ⟨4, fun _ => [2, 2, 2, 2], fun _ => rfl⟩

/-- The bundle produced by the adapter on `treeA`/`treeB` with default weights. -/
def dataAB : XgbData := ⟨[5], [2, 2, 1, 1, 1], [0, 0, 1, 1, 1], 2, 3⟩

/-- The bundle produced by the adapter on `treeA`/`treeB` with explicit weight 7. -/
def dataW7 : XgbData := ⟨[5], [7, 7, 7, 7, 7], [0, 0, 1, 1, 1], 2, 3⟩

/-- The bundle produced by the adapter on `tree3`/`tree4` with default weights:
the signal weight is `1 + 4/3 = 2` and the background weight is `1 + 3/4 = 1`. -/
def data34 : XgbData := ⟨[5], [2, 2, 2, 1, 1, 1, 1], [0, 0, 0, 1, 1, 1, 1], 3, 4⟩

/-- C3 counterexample: with `n_signal = 3`, `n_background = 4` and no explicit
weights, the code computes `sw = 2` and `bw = 1`, so
`|sw*3 - bw*4| = 2`, which exceeds the claimed bound
`n_signal + n_background - 2*min(n_signal,n_background) = 1`. -/
theorem balanced_weight_claimed_bound_fails :
    (ROOTToXGBoostTT libOK tree3 tree4 ["x"] none none).2 = .ok data34 ∧
    ¬(|data34.weights.getD 0 0 * (data34.n_sig : Float_t) -
        data34.weights.getD data34.n_sig 0 * (data34.n_bgd : Float_t)| ≤
      (data34.n_sig : Float_t) + (data34.n_bgd : Float_t) -
        2 * min (data34.n_sig : Float_t) (data34.n_bgd : Float_t)) := by
  constructor
  · with_unfolding_all decide
  · intro hcontra
    have h1 : data34.weights.getD 0 0 = 2 := by with_unfolding_all decide
    have h2 : data34.weights.getD data34.n_sig 0 = 1 := by with_unfolding_all decide
    have h3 : data34.n_sig = 3 := rfl
    have h4 : data34.n_bgd = 4 := rfl
    rw [h1, h2, h3, h4] at hcontra
    norm_num at hcontra

/-- C3 amended: for `n_signal > 0` and `n_background > 0` and no explicit
weights, the computed weights satisfy
`|signal_weight * n_signal - background_weight * n_background| ≤
 min(n_signal, n_background)` (the claimed bound
`n_signal + n_background - 2*min(...)` does not hold in general). -/
theorem balanced_weight_bound (lib : XgbLib) (sig bgd : TTree) (vars : List String)
    (d : XgbData) (hs : 0 < sig.n) (hb : 0 < bgd.n)
    (h : (ROOTToXGBoostTT lib sig bgd vars none none).2 = .ok d) :
    |d.weights.getD 0 0 * (sig.n : Float_t) - d.weights.getD sig.n 0 * (bgd.n : Float_t)| ≤
      min (sig.n : Float_t) (bgd.n : Float_t) := by
  have hsw := sigWeight_of_none h 0 hs
  have hbw := bgdWeight_of_none h sig.n le_rfl (by omega)
  rw [hsw, hbw]
  exact balanced_bound_arith sig.n bgd.n hs hb

/-- C3 amended-claim witness at `n_signal = 3`, `n_background = 4`. -/
theorem balanced_weight_bound_witness :
    |data34.weights.getD 0 0 * (tree3.n : Float_t) -
        data34.weights.getD tree3.n 0 * (tree4.n : Float_t)| ≤
      min (tree3.n : Float_t) (tree4.n : Float_t) :=
  balanced_weight_bound libOK tree3 tree4 ["x"] data34 (by with_unfolding_all decide) (by with_unfolding_all decide) (by with_unfolding_all decide)

/-- C1 witness: the layout property evaluated on a 2-row signal tree and a
3-row background tree. -/
theorem twoTree_layout_witness :
    (∀ i j, i < treeA.n → j < (["x"] : List String).length →
      getM (buildMat treeA treeB ["x"]) i j =
        (treeA.branch ((["x"] : List String).getD j "")).getD i 0) ∧
    (∀ i j, treeA.n ≤ i → i < treeA.n + treeB.n → j < (["x"] : List String).length →
      getM (buildMat treeA treeB ["x"]) i j =
        (treeB.branch ((["x"] : List String).getD j "")).getD (i - treeA.n) 0) ∧
    dataAB.labels.length = treeA.n + treeB.n ∧
    (∀ i, i < treeA.n → dataAB.labels.getD i 0 = 0) ∧
    (∀ i, treeA.n ≤ i → i < treeA.n + treeB.n → dataAB.labels.getD i 0 = 1) :=
  twoTree_layout libOK treeA treeB ["x"] none none dataAB (by with_unfolding_all decide)

/-- C2 witness: balanced weights evaluated on a 2-row signal tree and a 3-row
background tree (`sw = 1 + 3/2 = 2`, `bw = 1 + 2/3 = 1`). -/
theorem twoTree_balanced_weights_witness :
    (∀ k, k < treeA.n →
      dataAB.weights.getD k 0 = 1 + ((treeB.n / treeA.n : Nat) : Float_t)) ∧
    (∀ k, treeA.n ≤ k → k < treeA.n + treeB.n →
      dataAB.weights.getD k 0 = 1 + ((treeA.n / treeB.n : Nat) : Float_t)) :=
  ⟨(twoTree_balanced_weights libOK treeA treeB ["x"] none dataAB).1 (by with_unfolding_all decide),
   (twoTree_balanced_weights libOK treeA treeB ["x"] none dataAB).2 (by with_unfolding_all decide)⟩

/-- C4 witness: explicit weight 7 supplied for both classes. -/
theorem twoTree_explicit_weights_witness :
    (∀ k, k < treeA.n → dataW7.weights.getD k 0 = 7) ∧
    (∀ k, treeA.n ≤ k → k < treeA.n + treeB.n → dataW7.weights.getD k 0 = 7) :=
  ⟨(twoTree_explicit_weights libOK treeA treeB ["x"] 7 (some 7) dataW7).1 (by with_unfolding_all decide),
   (twoTree_explicit_weights libOK treeA treeB ["x"] 7 (some 7) dataW7).2 (by with_unfolding_all decide)⟩

/-- C10 witness: an empty signal (resp. background) tree with a null weight
produces the division-by-zero outcome; non-empty trees never do. -/
theorem twoTree_division_by_zero_witness :
    (ROOTToXGBoostTT libOK tree0 treeB ["x"] none none).2 = .error .divByZero ∧
    (ROOTToXGBoostTT libOK treeA tree0 ["x"] none none).2 = .error .divByZero ∧
    (ROOTToXGBoostTT libOK treeA treeB ["x"] none none).2 ≠ .error .divByZero :=
  ⟨(twoTree_division_by_zero libOK tree0 treeB ["x"] none none).1 rfl,
   (twoTree_division_by_zero libOK treeA tree0 ["x"] none none).2.1 rfl,
   (twoTree_division_by_zero libOK treeA treeB ["x"] none none).2.2 (by with_unfolding_all decide) (by with_unfolding_all decide)⟩

/-! ### The mixed-dataset (DataSetInfo) adapter -/

/-- `TMVA::Types::ETreeType`. -/
inductive ETreeType where
  | kTraining
  | kTesting
  | kMaxTreeType
  | kValidation
  | kTrainingOriginal
  deriving DecidableEq

/-- A TMVA `Event`: per-variable values (`GetValue(j)`) and its recorded
original weight (`GetOriginalWeight()`). -/
structure Event where
  values : List Float_t
  originalWeight : Float_t

/-- `Event::GetValue(j)`. -/
def GetValue (e : Event) (j : Nat) : Float_t := e.values.getD j 0

/-- A TMVA `DataSet`: the variable count, the recorded per-class
per-partition event counts, and the event collection of each partition. -/
structure DataSet where
  nVariables : Nat
  nEvtSigTest : Nat
  nEvtBkgdTest : Nat
  nEvtSigTrain : Nat
  nEvtBkgdTrain : Nat
  eventCollection : ETreeType → List Event

/-- A TMVA `DataSetInfo`: its `DataSet` plus the per-event signal
classification `IsSignal`. -/
structure DataSetInfo where
  dataset : DataSet
  isSignal : Event → Bool

/-- The row-count resolution at the top of the DataSetInfo adapter: the
dataset's recorded (signal, background) counts for the selected partition,
or nothing for any other selector (which the code turns into a thrown
`runtime_error`). -/
def recordedCounts (ds : DataSet) (type : ETreeType) : Option (Nat × Nat) :=
  match type with
  | .kTesting => some (ds.nEvtSigTest, ds.nEvtBkgdTest)
  | .kTraining => some (ds.nEvtSigTrain, ds.nEvtBkgdTrain)
  | _ => none

/-- Errors of the DataSetInfo adapter: the thrown `runtime_error` for an
unexpected tree type, or a thrown `safe_xgboost` error. -/
inductive MixedError where
  | badTreeType (msg : String)
  | xgb (e : XgbError)
  deriving DecidableEq

/-- The labels built by the event loop of the DataSetInfo adapter: label 0.0
where `IsSignal`, else 1.0, in collection order. -/
def labelsDS (info : DataSetInfo) (events : List Event) : List Float_t :=
  events.map (fun e => if info.isSignal e then (0 : Float_t) else 1)

/-- The weights built by the event loop of the DataSetInfo adapter: each
event's own recorded weight, in collection order. -/
def weightsDS (events : List Event) : List Float_t :=
  events.map (fun e => e.originalWeight)

/-- The `sb_mat` buffer built by the event loop of the DataSetInfo adapter:
row `i` holds `GetValue(0) .. GetValue(n_vars - 1)` of event `i`. -/
def buildMatDS (nVars : Nat) (events : List Event) : List (List Float_t) :=
  events.map (fun e => (List.range nVars).map (fun j => GetValue e j))

/-- `ROOTToXGBoost(const TMVA::DataSetInfo&, TMVA::Types::ETreeType)`: resolve
the recorded row counts for the selected partition (throwing for any other
selector before touching any event), iterate the partition's event collection
once building matrix rows, labels and weights, then create the DMatrix and
attach the labels under `"label"`. -/
def ROOTToXGBoostDS (lib : XgbLib) (info : DataSetInfo) (type : ETreeType) :
    List XgbCall × Except MixedError XgbData :=
  match recordedCounts info.dataset type with
  | none =>
    ([], .error (.badTreeType "Unexpected treeType (must be either kTesting or kTraining)."))
  | some (n_sig, n_bgd) =>
    match safe_xgboost lib "root2xgboost.cpp:131"
        (.dmatrixCreateFromMat
          (buildMatDS info.dataset.nVariables (info.dataset.eventCollection type)).flatten
          (n_sig + n_bgd) info.dataset.nVariables 0) with
    | .error e =>
      ([.dmatrixCreateFromMat
          (buildMatDS info.dataset.nVariables (info.dataset.eventCollection type)).flatten
          (n_sig + n_bgd) info.dataset.nVariables 0],
       .error (.xgb e))
    | .ok _ =>
      match safe_xgboost lib "root2xgboost.cpp:132"
          (.dmatrixSetFloatInfo lib.dmatHandle "label"
            (labelsDS info (info.dataset.eventCollection type)) (n_sig + n_bgd)) with
      | .error e =>
        ([.dmatrixCreateFromMat
            (buildMatDS info.dataset.nVariables (info.dataset.eventCollection type)).flatten
            (n_sig + n_bgd) info.dataset.nVariables 0,
          .dmatrixSetFloatInfo lib.dmatHandle "label"
            (labelsDS info (info.dataset.eventCollection type)) (n_sig + n_bgd)],
         .error (.xgb e))
      | .ok _ =>
        ([.dmatrixCreateFromMat
            (buildMatDS info.dataset.nVariables (info.dataset.eventCollection type)).flatten
            (n_sig + n_bgd) info.dataset.nVariables 0,
          .dmatrixSetFloatInfo lib.dmatHandle "label"
            (labelsDS info (info.dataset.eventCollection type)) (n_sig + n_bgd)],
         .ok ⟨[lib.dmatHandle], weightsDS (info.dataset.eventCollection type),
              labelsDS info (info.dataset.eventCollection type), n_sig, n_bgd⟩)

/-- Eliminator for a successful DataSetInfo-adapter run. -/
theorem ROOTToXGBoostDS_ok {lib : XgbLib} {info : DataSetInfo} {type : ETreeType}
    {d : XgbData} (h : (ROOTToXGBoostDS lib info type).2 = .ok d) :
    ∃ n_sig n_bgd, recordedCounts info.dataset type = some (n_sig, n_bgd) ∧
      d = ⟨[lib.dmatHandle], weightsDS (info.dataset.eventCollection type),
           labelsDS info (info.dataset.eventCollection type), n_sig, n_bgd⟩ := by
  unfold ROOTToXGBoostDS at h
  split at h
  · simp at h
  case _ n_sig n_bgd hrc =>
    split at h
    · simp at h
    · split at h
      · simp at h
      · simp only [Except.ok.injEq] at h
        exact ⟨n_sig, n_bgd, hrc, h.symm⟩

/-- The number of entries of `l` equal to `v`. -/
def countEq (l : List Float_t) (v : Float_t) : Nat :=
  l.countP (fun x => decide (x = v))

theorem countEq_labelsDS_sig (info : DataSetInfo) (events : List Event) :
    countEq (labelsDS info events) 0 = events.countP info.isSignal := by
  induction events with
  | nil => rfl
  | cons e rest ih =>
    simp only [labelsDS, countEq, List.map_cons, List.countP_cons] at *
    by_cases h : info.isSignal e
    · simp [h, ih]
    · simp [h, ih]

theorem countEq_labelsDS_bgd (info : DataSetInfo) (events : List Event) :
    countEq (labelsDS info events) 1 = events.length - events.countP info.isSignal := by
  induction events with
  | nil => rfl
  | cons e rest ih =>
    have hcle : rest.countP info.isSignal ≤ rest.length := List.countP_le_length _
    simp only [labelsDS, countEq, List.map_cons, List.countP_cons, List.length_cons] at *
    by_cases h : info.isSignal e
    · simp only [h, if_pos] at *
      norm_num [ih]
      omega
    · simp only [h] at *
      norm_num [ih]
      omega

theorem length_labelsDS (info : DataSetInfo) (events : List Event) :
    (labelsDS info events).length = events.length := by
  simp [labelsDS]

/-- C5: for a valid partition selector, the labels of the returned bundle
classify each event by the dataset's own `IsSignal`; under the dataset
invariant that the recorded counts describe the selected collection, exactly
`n_sig` labels are 0.0 and exactly `n_bgd` labels are 1.0. -/
theorem mixed_labels_spec (lib : XgbLib) (info : DataSetInfo) (type : ETreeType)
    (n_sig n_bgd : Nat) (d : XgbData)
    (hrc : recordedCounts info.dataset type = some (n_sig, n_bgd))
    (hcount : (info.dataset.eventCollection type).countP info.isSignal = n_sig)
    (hlen : (info.dataset.eventCollection type).length = n_sig + n_bgd)
    (h : (ROOTToXGBoostDS lib info type).2 = .ok d) :
    countEq d.labels 0 = n_sig ∧
    countEq d.labels 1 = n_bgd ∧
    d.n_sig = n_sig ∧ d.n_bgd = n_bgd ∧
    (∀ i, i < (info.dataset.eventCollection type).length →
      d.labels.getD i 0 =
        if info.isSignal ((info.dataset.eventCollection type).getD i ⟨[], 0⟩) then 0
        else 1) := by
  obtain ⟨ns, nb, hrc2, rfl⟩ := ROOTToXGBoostDS_ok h
  rw [hrc] at hrc2
  obtain ⟨rfl, rfl⟩ : ns = n_sig ∧ nb = n_bgd := by
    simpa using hrc2.symm
  refine ⟨?_, ?_, rfl, rfl, ?_⟩
  · simp only []
    rw [countEq_labelsDS_sig, hcount]
  · simp only []
    rw [countEq_labelsDS_bgd, hcount, hlen]
    omega
  · intro i hi
    simp only [labelsDS]
    rw [getD_map_of_lt _ _ i ⟨[], 0⟩ 0 hi]

/-- C6: any partition selector other than testing or training makes the
DataSetInfo adapter throw immediately: no library call is issued, no event is
processed and no bundle is created. -/
theorem mixed_bad_type_aborts (lib : XgbLib) (info : DataSetInfo) (type : ETreeType)
    (h1 : type ≠ .kTesting) (h2 : type ≠ .kTraining) :
    ROOTToXGBoostDS lib info type =
      ([], .error (.badTreeType
        "Unexpected treeType (must be either kTesting or kTraining).")) := by
  cases type with
  | kTesting => exact absurd rfl h1
  | kTraining => exact absurd rfl h2
  | kMaxTreeType => rfl
  | kValidation => rfl
  | kTrainingOriginal => rfl

def evS : Event := ⟨[1], 7⟩

def evB : Event := ⟨[2], 8⟩

/-- A concrete dataset: one variable, a testing partition with one signal and
one background event, an empty training partition. -/
def dsW : DataSet :=
  ⟨1, 1, 1, 0, 0, fun t => match t with | .kTesting => [evS, evB] | _ => []⟩

def dsInfoW : DataSetInfo := ⟨dsW, fun e => decide (e.values.getD 0 0 = 1)⟩

/-- The bundle produced by the DataSetInfo adapter on `dsInfoW`, testing
partition. -/
def dataDS : XgbData := ⟨[5], [7, 8], [0, 1], 1, 1⟩

/-- C5 witness: one signal and one background event in the testing partition. -/
theorem mixed_labels_spec_witness :
    countEq dataDS.labels 0 = 1 ∧
    countEq dataDS.labels 1 = 1 ∧
    dataDS.n_sig = 1 ∧ dataDS.n_bgd = 1 ∧
    (∀ i, i < (dsInfoW.dataset.eventCollection .kTesting).length →
      dataDS.labels.getD i 0 =
        if dsInfoW.isSignal ((dsInfoW.dataset.eventCollection .kTesting).getD i ⟨[], 0⟩)
        then 0 else 1) :=
  mixed_labels_spec libOK dsInfoW .kTesting 1 1 dataDS rfl
    (by with_unfolding_all decide) rfl (by with_unfolding_all decide)

/-- C6 witness: the selector `kMaxTreeType` aborts with the thrown error and
an empty call trace. -/
theorem mixed_bad_type_aborts_witness :
    ROOTToXGBoostDS libOK dsInfoW .kMaxTreeType =
      ([], .error (.badTreeType
        "Unexpected treeType (must be either kTesting or kTraining).")) :=
  mixed_bad_type_aborts libOK dsInfoW .kMaxTreeType (by decide) (by decide)

/-! ### The trainer `xgboost_train` -/

/-- The state of a `BoosterHandle` as the trainer mutates it: the DMatrix
cache it was created over, the parameters applied so far (in application
order) and the update iterations run so far (iteration number and DMatrix). -/
structure Booster where
  handle : Nat
  cacheDmats : List Nat
  params : List (String × String)
  updates : List (Nat × Nat)
  deriving DecidableEq

/-- The options loop of `xgboost_train`:
`for(auto opt: *opts){ safe_xgboost(XGBoosterSetParam(booster, opt.first, opt.second)) }`. -/
def applyParams (lib : XgbLib) (b : Booster) (opts : List (String × String)) :
    List XgbCall × Except XgbError Booster :=
  match opts with
  | [] => ([], .ok b)
  | opt :: rest =>
    match safe_xgboost lib "root2xgboost.cpp:143" (.boosterSetParam b.handle opt.1 opt.2) with
    | .error e => ([.boosterSetParam b.handle opt.1 opt.2], .error e)
    | .ok _ =>
      let r := applyParams lib { b with params := b.params ++ [opt] } rest
      (XgbCall.boosterSetParam b.handle opt.1 opt.2 :: r.1, r.2)

/-- The training loop of `xgboost_train`:
`for(UInt_t iter = 0; iter < n_iter; iter++){ safe_xgboost(XGBoosterUpdateOneIter(booster, iter, (data->sb_dmats)[0])) }`.
`fuel` is the number of remaining iterations (`n_iter - iter`). -/
def runUpdates (lib : XgbLib) (b : Booster) (dm : Nat) (iter : Nat) :
    Nat → List XgbCall × Except XgbError Booster
  | 0 => ([], .ok b)
  | fuel + 1 =>
    match safe_xgboost lib "root2xgboost.cpp:148" (.boosterUpdateOneIter b.handle iter dm) with
    | .error e => ([.boosterUpdateOneIter b.handle iter dm], .error e)
    | .ok _ =>
      let r := runUpdates lib { b with updates := b.updates ++ [(iter, dm)] } dm (iter + 1) fuel
      (XgbCall.boosterUpdateOneIter b.handle iter dm :: r.1, r.2)

/-- `xgboost_train(xgboost_data*, xgbooster_opts*, UInt_t)`: create a booster
over the bundle's (single-element) DMatrix array, apply every option in
order, then run exactly `n_iter` update iterations against that same matrix,
returning the trained handle. -/
def xgboost_train (lib : XgbLib) (data : XgbData) (opts : List (String × String))
    (n_iter : Nat) : List XgbCall × Except XgbError Booster :=
  match safe_xgboost lib "root2xgboost.cpp:140" (.boosterCreate data.sb_dmats 1) with
  | .error e => ([.boosterCreate data.sb_dmats 1], .error e)
  | .ok _ =>
    let r1 := applyParams lib ⟨lib.boosterHandle, data.sb_dmats, [], []⟩ opts
    match r1.2 with
    | .error e => (XgbCall.boosterCreate data.sb_dmats 1 :: r1.1, .error e)
    | .ok b1 =>
      let r2 := runUpdates lib b1 (data.sb_dmats.getD 0 0) 0 n_iter
      (XgbCall.boosterCreate data.sb_dmats 1 :: (r1.1 ++ r2.1), r2.2)

theorem applyParams_ok (lib : XgbLib) (opts : List (String × String)) :
    ∀ (b b2 : Booster), (applyParams lib b opts).2 = .ok b2 →
      b2 = { b with params := b.params ++ opts } ∧
      (applyParams lib b opts).1 =
        opts.map (fun o => XgbCall.boosterSetParam b.handle o.1 o.2) := by
  induction opts with
  | nil =>
    intro b b2 h
    simp only [applyParams, Except.ok.injEq] at h
    subst h
    constructor
    · cases b; simp
    · rfl
  | cons opt rest ih =>
    intro b b2 h
    rw [applyParams] at h ⊢
    split at h
    · simp at h
    · simp only [] at h ⊢
      obtain ⟨hb2, htr⟩ := ih { b with params := b.params ++ [opt] } b2 h
      constructor
      · rw [hb2]
        simp
      · simp only [List.map_cons, List.cons.injEq]
        exact ⟨trivial, htr⟩

theorem runUpdates_ok (lib : XgbLib) (dm : Nat) (fuel : Nat) :
    ∀ (b b2 : Booster) (iter : Nat), (runUpdates lib b dm iter fuel).2 = .ok b2 →
      b2 = { b with updates := b.updates ++ (List.range' iter fuel).map (fun i => (i, dm)) } ∧
      (runUpdates lib b dm iter fuel).1 =
        (List.range' iter fuel).map (fun i => XgbCall.boosterUpdateOneIter b.handle i dm) := by
  induction fuel with
  | zero =>
    intro b b2 iter h
    simp only [runUpdates, Except.ok.injEq] at h
    subst h
    constructor
    · cases b; simp
    · rfl
  | succ fuel ih =>
    intro b b2 iter h
    rw [runUpdates] at h ⊢
    split at h
    · simp at h
    · simp only [] at h ⊢
      obtain ⟨hb2, htr⟩ := ih { b with updates := b.updates ++ [(iter, dm)] } b2 (iter + 1) h
      constructor
      · rw [hb2]
        simp [List.range'_succ]
      · rw [List.range'_succ]
        simp only [List.map_cons, List.cons.injEq]
        exact ⟨trivial, htr⟩

/-- C7: a successful `xgboost_train` run creates the booster over the bundle's
single wrapped matrix, applies the hyperparameters in the order given, and
runs exactly `n_iter` sequential update iterations (numbered `0..n_iter-1`)
against that same matrix — in that order, with no other call; for
`n_iter = 0` no update iteration is performed. -/
theorem xgboost_train_spec (lib : XgbLib) (data : XgbData)
    (opts : List (String × String)) (n_iter : Nat) (b : Booster)
    (h : (xgboost_train lib data opts n_iter).2 = .ok b) :
    b.handle = lib.boosterHandle ∧
    b.cacheDmats = data.sb_dmats ∧
    b.params = opts ∧
    b.updates = (List.range n_iter).map (fun i => (i, data.sb_dmats.getD 0 0)) ∧
    (n_iter = 0 → b.updates = []) ∧
    (xgboost_train lib data opts n_iter).1 =
      XgbCall.boosterCreate data.sb_dmats 1 ::
        (opts.map (fun o => XgbCall.boosterSetParam lib.boosterHandle o.1 o.2) ++
         (List.range n_iter).map
           (fun i => XgbCall.boosterUpdateOneIter lib.boosterHandle i
             (data.sb_dmats.getD 0 0))) := by
  rw [xgboost_train] at h ⊢
  split at h
  · simp at h
  · simp only [] at h ⊢
    split at h
    · simp at h
    case _ b1 hb1 =>
      simp only [] at h
      obtain ⟨hb1eq, htr1⟩ := applyParams_ok lib opts _ b1 hb1
      obtain ⟨hb2eq, htr2⟩ :=
        runUpdates_ok lib (data.sb_dmats.getD 0 0) n_iter b1 b 0 h
      subst hb1eq
      simp only [List.nil_append] at hb2eq
      have hrange : List.range' 0 n_iter = List.range n_iter :=
        (List.range_eq_range' n_iter).symm
    -- some simp lemma names differ between versions; close field by field
      refine ⟨?_, ?_, ?_, ?_, ?_, ?_⟩
      · rw [hb2eq]
      · rw [hb2eq]
      · rw [hb2eq]
      · rw [hb2eq]
        simp [hrange]
      · intro h0
        subst h0
        rw [hb2eq]
        simp
      · simp only [htr1, htr2, hrange]

def optsW : List (String × String) := [("eta", "0.3"), ("max_depth", "3")]

/-- The booster state after training on `dataAB` with `optsW` and 2 iterations. -/
def boosterW : Booster := ⟨9, [5], optsW, [(0, 5), (1, 5)]⟩

/-- C7 witness: two options and two iterations on a concrete bundle. -/
theorem xgboost_train_spec_witness :
    boosterW.handle = libOK.boosterHandle ∧
    boosterW.cacheDmats = dataAB.sb_dmats ∧
    boosterW.params = optsW ∧
    boosterW.updates = (List.range 2).map (fun i => (i, dataAB.sb_dmats.getD 0 0)) ∧
    (2 = 0 → boosterW.updates = []) ∧
    (xgboost_train libOK dataAB optsW 2).1 =
      XgbCall.boosterCreate dataAB.sb_dmats 1 ::
        (optsW.map (fun o => XgbCall.boosterSetParam libOK.boosterHandle o.1 o.2) ++
         (List.range 2).map
           (fun i => XgbCall.boosterUpdateOneIter libOK.boosterHandle i
             (dataAB.sb_dmats.getD 0 0))) :=
  xgboost_train_spec libOK dataAB optsW 2 boosterW (by with_unfolding_all decide)

/-! ### Error reporting (the `safe_xgboost` contract) -/

/-- `xgboost_data::free()`: release the DMatrix handle through `safe_xgboost`. -/
def xgboost_data_free (lib : XgbLib) (d : XgbData) : List XgbCall × Except XgbError Unit :=
  match safe_xgboost lib "root2xgboost.h:52" (.dmatrixFree (d.sb_dmats.getD 0 0)) with
  | .error e => ([.dmatrixFree (d.sb_dmats.getD 0 0)], .error e)
  | .ok _ => ([.dmatrixFree (d.sb_dmats.getD 0 0)], .ok ())

/-- `p` occurs as a substring of `m`. -/
def strContains (m p : String) : Prop := ∃ s t, m = s ++ (p ++ t)

/-- What the program guarantees about a thrown `safe_xgboost` error: the
observed status was non-zero, the error carries the library's last-error
string, and its message contains both the failing call's textual form and
that last-error string. -/
def xgbErrorReported (lib : XgbLib) (e : XgbError) : Prop :=
  lib.status e.call ≠ 0 ∧ e.lastError = lib.lastError ∧
  strContains e.message (callText e.call) ∧ strContains e.message e.lastError

theorem message_contains (e : XgbError) :
    strContains e.message (callText e.call) ∧ strContains e.message e.lastError := by
  constructor
  · refine ⟨e.loc ++ ": error in ", ":" ++ e.lastError, ?_⟩
    unfold XgbError.message
    rw [String.append_assoc, String.append_assoc]
  · refine ⟨e.loc ++ ": error in " ++ callText e.call ++ ":", "", ?_⟩
    unfold XgbError.message
    rw [String.append_empty]

theorem safe_xgboost_error {lib : XgbLib} {loc : String} {c : XgbCall} {e : XgbError}
    (h : safe_xgboost lib loc c = .error e) :
    lib.status e.call ≠ 0 ∧ e.lastError = lib.lastError := by
  unfold safe_xgboost at h
  by_cases hs : lib.status c ≠ 0
  · rw [if_pos hs] at h
    simp only [Except.error.injEq] at h
    subst h
    exact ⟨hs, rfl⟩
  · rw [if_neg hs] at h
    simp at h

theorem safe_xgboost_ok {lib : XgbLib} {loc : String} {c : XgbCall} {u : Unit}
    (h : safe_xgboost lib loc c = .ok u) : lib.status c = 0 := by
  unfold safe_xgboost at h
  by_cases hs : lib.status c ≠ 0
  · rw [if_pos hs] at h
    simp at h
  · exact not_not.mp hs

theorem xgbErrorReported_of {lib : XgbLib} {e : XgbError}
    (h1 : lib.status e.call ≠ 0) (h2 : e.lastError = lib.lastError) :
    xgbErrorReported lib e :=
  ⟨h1, h2, (message_contains e).1, (message_contains e).2⟩

theorem applyParams_error (lib : XgbLib) (opts : List (String × String)) :
    ∀ (b : Booster) (e : XgbError), (applyParams lib b opts).2 = .error e →
      xgbErrorReported lib e := by
  induction opts with
  | nil => intro b e h; simp [applyParams] at h
  | cons opt rest ih =>
    intro b e h
    rw [applyParams] at h
    split at h
    case _ e0 heq =>
      simp only [Except.error.injEq] at h
      subst h
      obtain ⟨h1, h2⟩ := safe_xgboost_error heq
      exact xgbErrorReported_of h1 h2
    · exact ih _ e h

theorem runUpdates_error (lib : XgbLib) (dm : Nat) (fuel : Nat) :
    ∀ (b : Booster) (iter : Nat) (e : XgbError),
      (runUpdates lib b dm iter fuel).2 = .error e → xgbErrorReported lib e := by
  induction fuel with
  | zero => intro b iter e h; simp [runUpdates] at h
  | succ fuel ih =>
    intro b iter e h
    rw [runUpdates] at h
    split at h
    case _ e0 heq =>
      simp only [Except.error.injEq] at h
      subst h
      obtain ⟨h1, h2⟩ := safe_xgboost_error heq
      exact xgbErrorReported_of h1 h2
    · exact ih _ (iter + 1) e h

theorem xgboost_train_error {lib : XgbLib} {data : XgbData}
    {opts : List (String × String)} {n_iter : Nat} {e : XgbError}
    (h : (xgboost_train lib data opts n_iter).2 = .error e) :
    xgbErrorReported lib e := by
  rw [xgboost_train] at h
  split at h
  case _ e0 heq =>
    simp only [Except.error.injEq] at h
    subst h
    obtain ⟨h1, h2⟩ := safe_xgboost_error heq
    exact xgbErrorReported_of h1 h2
  · simp only [] at h
    split at h
    case _ e0 heq =>
      simp only [Except.error.injEq] at h
      subst h
      exact applyParams_error lib opts _ _ heq
    case _ b1 hb1 =>
      simp only [] at h
      exact runUpdates_error lib (data.sb_dmats.getD 0 0) n_iter b1 0 e h

theorem applyParams_statuses (lib : XgbLib) (opts : List (String × String)) :
    ∀ (b b2 : Booster), (applyParams lib b opts).2 = .ok b2 →
      ∀ c ∈ (applyParams lib b opts).1, lib.status c = 0 := by
  induction opts with
  | nil => intro b b2 _ c hc; simp [applyParams] at hc
  | cons opt rest ih =>
    intro b b2 h c hc
    rw [applyParams] at h hc
    split at h
    · simp at h
    case _ u heq =>
      simp only [] at h
      rw [heq] at hc
      simp only [List.mem_cons] at hc
      rcases hc with rfl | hc
      · exact safe_xgboost_ok heq
      · exact ih _ b2 h c hc

theorem runUpdates_statuses (lib : XgbLib) (dm : Nat) (fuel : Nat) :
    ∀ (b b2 : Booster) (iter : Nat), (runUpdates lib b dm iter fuel).2 = .ok b2 →
      ∀ c ∈ (runUpdates lib b dm iter fuel).1, lib.status c = 0 := by
  induction fuel with
  | zero => intro b b2 iter _ c hc; simp [runUpdates] at hc
  | succ fuel ih =>
    intro b b2 iter h c hc
    rw [runUpdates] at h hc
    split at h
    · simp at h
    case _ u heq =>
      simp only [] at h
      rw [heq] at hc
      simp only [List.mem_cons] at hc
      rcases hc with rfl | hc
      · exact safe_xgboost_ok heq
      · exact ih _ b2 (iter + 1) h c hc

theorem xgboost_train_statuses {lib : XgbLib} {data : XgbData}
    {opts : List (String × String)} {n_iter : Nat} {b : Booster}
    (h : (xgboost_train lib data opts n_iter).2 = .ok b) :
    ∀ c ∈ (xgboost_train lib data opts n_iter).1, lib.status c = 0 := by
  intro c hc
  rw [xgboost_train] at h hc
  split at h
  · simp at h
  case _ u heq =>
    simp only [] at h
    split at h
    · simp at h
    case _ b1 hb1 =>
      simp only [] at h
      rw [heq] at hc
      simp only [hb1, List.mem_cons, List.mem_append] at hc
      rcases hc with rfl | hc | hc
      · exact safe_xgboost_ok heq
      · exact applyParams_statuses lib opts _ b1 hb1 c hc
      · exact runUpdates_statuses lib (data.sb_dmats.getD 0 0) n_iter b1 b 0 h c hc

theorem ROOTToXGBoostTT_error {lib : XgbLib} {sig bgd : TTree} {vars : List String}
    {sw0 bw0 : Option Float_t} {e : XgbError}
    (h : (ROOTToXGBoostTT lib sig bgd vars sw0 bw0).2 = .error (.xgb e)) :
    xgbErrorReported lib e := by
  unfold ROOTToXGBoostTT at h
  split at h
  · simp at h
  · split at h
    · simp at h
    · split at h
      case _ e0 heq =>
        simp only [Except.error.injEq, TwoTreeError.xgb.injEq] at h
        subst h
        obtain ⟨h1, h2⟩ := safe_xgboost_error heq
        exact xgbErrorReported_of h1 h2
      · split at h
        case _ e0 heq =>
          simp only [Except.error.injEq, TwoTreeError.xgb.injEq] at h
          subst h
          obtain ⟨h1, h2⟩ := safe_xgboost_error heq
          exact xgbErrorReported_of h1 h2
        · simp at h

theorem ROOTToXGBoostTT_statuses {lib : XgbLib} {sig bgd : TTree} {vars : List String}
    {sw0 bw0 : Option Float_t} {d : XgbData}
    (h : (ROOTToXGBoostTT lib sig bgd vars sw0 bw0).2 = .ok d) :
    ∀ c ∈ (ROOTToXGBoostTT lib sig bgd vars sw0 bw0).1, lib.status c = 0 := by
  intro c hc
  unfold ROOTToXGBoostTT at h hc
  split at h
  · simp at h
  case _ sw hsw =>
    split at h
    · simp at h
    case _ bw hbw =>
      split at h
      · simp at h
      case _ u heq =>
        split at h
        · simp at h
        case _ u2 heq2 =>
          rw [hsw, hbw, heq, heq2] at hc
          simp only [List.mem_cons, List.mem_singleton, List.not_mem_nil, or_false] at hc
          rcases hc with rfl | rfl
          · exact safe_xgboost_ok heq
          · exact safe_xgboost_ok heq2

theorem ROOTToXGBoostDS_error {lib : XgbLib} {info : DataSetInfo} {type : ETreeType}
    {e : XgbError} (h : (ROOTToXGBoostDS lib info type).2 = .error (.xgb e)) :
    xgbErrorReported lib e := by
  unfold ROOTToXGBoostDS at h
  split at h
  · simp at h
  · split at h
    case _ e0 heq =>
      simp only [Except.error.injEq, MixedError.xgb.injEq] at h
      subst h
      obtain ⟨h1, h2⟩ := safe_xgboost_error heq
      exact xgbErrorReported_of h1 h2
    · split at h
      case _ e0 heq =>
        simp only [Except.error.injEq, MixedError.xgb.injEq] at h
        subst h
        obtain ⟨h1, h2⟩ := safe_xgboost_error heq
        exact xgbErrorReported_of h1 h2
      · simp at h

theorem ROOTToXGBoostDS_statuses {lib : XgbLib} {info : DataSetInfo} {type : ETreeType}
    {d : XgbData} (h : (ROOTToXGBoostDS lib info type).2 = .ok d) :
    ∀ c ∈ (ROOTToXGBoostDS lib info type).1, lib.status c = 0 := by
  intro c hc
  unfold ROOTToXGBoostDS at h hc
  split at h
  · simp at h
  case _ n_sig n_bgd hrc =>
    split at h
    · simp at h
    case _ u heq =>
      split at h
      · simp at h
      case _ u2 heq2 =>
        rw [hrc] at hc
        simp only [heq, heq2, List.mem_cons, List.mem_singleton, List.not_mem_nil,
          or_false] at hc
        rcases hc with rfl | rfl
        · exact safe_xgboost_ok heq
        · exact safe_xgboost_ok heq2

theorem xgboost_data_free_error {lib : XgbLib} {d : XgbData} {e : XgbError}
    (h : (xgboost_data_free lib d).2 = .error e) : xgbErrorReported lib e := by
  unfold xgboost_data_free at h
  split at h
  case _ e0 heq =>
    simp only [Except.error.injEq] at h
    subst h
    obtain ⟨h1, h2⟩ := safe_xgboost_error heq
    exact xgbErrorReported_of h1 h2
  · simp at h

/-- C8: every library call made by the adapters, the trainer and the release
helper is individually status-checked: a successful result implies every
issued call returned status 0, and any failure surfaces as a thrown error
whose status was non-zero and whose message carries the failing call's
textual form and the library's last-error string — with no result returned. -/
theorem error_checking_spec (lib : XgbLib) :
    (∀ (sig bgd : TTree) (vars : List String) (sw0 bw0 : Option Float_t) (e : XgbError),
      (ROOTToXGBoostTT lib sig bgd vars sw0 bw0).2 = .error (.xgb e) →
        xgbErrorReported lib e) ∧
    (∀ (sig bgd : TTree) (vars : List String) (sw0 bw0 : Option Float_t) (d : XgbData),
      (ROOTToXGBoostTT lib sig bgd vars sw0 bw0).2 = .ok d →
        ∀ c ∈ (ROOTToXGBoostTT lib sig bgd vars sw0 bw0).1, lib.status c = 0) ∧
    (∀ (info : DataSetInfo) (type : ETreeType) (e : XgbError),
      (ROOTToXGBoostDS lib info type).2 = .error (.xgb e) → xgbErrorReported lib e) ∧
    (∀ (info : DataSetInfo) (type : ETreeType) (d : XgbData),
      (ROOTToXGBoostDS lib info type).2 = .ok d →
        ∀ c ∈ (ROOTToXGBoostDS lib info type).1, lib.status c = 0) ∧
    (∀ (data : XgbData) (opts : List (String × String)) (n_iter : Nat) (e : XgbError),
      (xgboost_train lib data opts n_iter).2 = .error e → xgbErrorReported lib e) ∧
    (∀ (data : XgbData) (opts : List (String × String)) (n_iter : Nat) (b : Booster),
      (xgboost_train lib data opts n_iter).2 = .ok b →
        ∀ c ∈ (xgboost_train lib data opts n_iter).1, lib.status c = 0) ∧
    (∀ (d : XgbData) (e : XgbError),
      (xgboost_data_free lib d).2 = .error e → xgbErrorReported lib e) :=
  ⟨fun _ _ _ _ _ _ h => ROOTToXGBoostTT_error h,
   fun _ _ _ _ _ _ h => ROOTToXGBoostTT_statuses h,
   fun _ _ _ h => ROOTToXGBoostDS_error h,
   fun _ _ _ h => ROOTToXGBoostDS_statuses h,
   fun _ _ _ _ h => xgboost_train_error h,
   fun _ _ _ _ h => xgboost_train_statuses h,
   fun _ _ h => xgboost_data_free_error h⟩

/-- A library oracle on which every call fails with status 1. -/
def libBad : XgbLib := ⟨fun _ => 1, "boom", 5, 9⟩

/-- The error thrown by `xgboost_train` under `libBad`: the booster-creation
call fails first. -/
def errCreate : XgbError := ⟨"root2xgboost.cpp:140", .boosterCreate [5] 1, "boom"⟩

/-- C8 witness: under an all-failing library the trainer throws the reported
booster-creation error; under an all-succeeding library every traced call of
a successful run has status 0. -/
theorem error_checking_spec_witness :
    xgbErrorReported libBad errCreate ∧
    (∀ c ∈ (xgboost_train libOK dataAB optsW 2).1, libOK.status c = 0) :=
  ⟨(error_checking_spec libBad).2.2.2.2.1 dataAB optsW 2 errCreate
      (by with_unfolding_all decide),
   (error_checking_spec libOK).2.2.2.2.2.1 dataAB optsW 2 boosterW
      (by with_unfolding_all decide)⟩

/-! ### Which data reaches the library (labels vs weights) -/

/-- Is this call `XGDMatrixSetFloatInfo`? -/
def isDmatrixSetFloatInfo : XgbCall → Bool
  | .dmatrixSetFloatInfo .. => true
  | _ => false

theorem ROOTToXGBoostTT_ok_trace {lib : XgbLib} {sig bgd : TTree} {vars : List String}
    {sw0 bw0 : Option Float_t} {d : XgbData}
    (h : (ROOTToXGBoostTT lib sig bgd vars sw0 bw0).2 = .ok d) :
    (ROOTToXGBoostTT lib sig bgd vars sw0 bw0).1 =
      [.dmatrixCreateFromMat (buildMat sig bgd vars).flatten (sig.n + bgd.n) vars.length 0,
       .dmatrixSetFloatInfo lib.dmatHandle "label" (labelsTT sig.n bgd.n)
         (sig.n + bgd.n)] := by
  unfold ROOTToXGBoostTT at h ⊢
  split at h
  · simp at h
  case _ sw hsw =>
    split at h
    · simp at h
    case _ bw hbw =>
      split at h
      · simp at h
      case _ u heq =>
        split at h
        · simp at h
        case _ u2 heq2 => rfl

theorem ROOTToXGBoostDS_ok_trace {lib : XgbLib} {info : DataSetInfo} {type : ETreeType}
    {d : XgbData} (ns nb : Nat) (hrc : recordedCounts info.dataset type = some (ns, nb))
    (h : (ROOTToXGBoostDS lib info type).2 = .ok d) :
    (ROOTToXGBoostDS lib info type).1 =
      [.dmatrixCreateFromMat
          (buildMatDS info.dataset.nVariables (info.dataset.eventCollection type)).flatten
          (ns + nb) info.dataset.nVariables 0,
       .dmatrixSetFloatInfo lib.dmatHandle "label"
         (labelsDS info (info.dataset.eventCollection type)) (ns + nb)] := by
  unfold ROOTToXGBoostDS at h ⊢
  split at h
  case _ hrc2 => rw [hrc] at hrc2; simp at hrc2
  case _ ns2 nb2 hrc2 =>
    rw [hrc] at hrc2
    simp only [Option.some.injEq, Prod.mk.injEq] at hrc2
    obtain ⟨rfl, rfl⟩ := hrc2
    split at h
    · simp at h
    case _ u heq =>
      split at h
      · simp at h
      case _ u2 heq2 => rfl

theorem applyParams_calls (lib : XgbLib) (opts : List (String × String)) :
    ∀ (b : Booster) (c : XgbCall), c ∈ (applyParams lib b opts).1 →
      isDmatrixSetFloatInfo c = false := by
  induction opts with
  | nil => intro b c hc; simp [applyParams] at hc
  | cons opt rest ih =>
    intro b c hc
    rw [applyParams] at hc
    split at hc
    · simp only [List.mem_singleton] at hc
      subst hc
      rfl
    · simp only [List.mem_cons] at hc
      rcases hc with rfl | hc
      · rfl
      · exact ih _ c hc

theorem runUpdates_calls (lib : XgbLib) (dm : Nat) (fuel : Nat) :
    ∀ (b : Booster) (iter : Nat) (c : XgbCall), c ∈ (runUpdates lib b dm iter fuel).1 →
      isDmatrixSetFloatInfo c = false := by
  induction fuel with
  | zero => intro b iter c hc; simp [runUpdates] at hc
  | succ fuel ih =>
    intro b iter c hc
    rw [runUpdates] at hc
    split at hc
    · simp only [List.mem_singleton] at hc
      subst hc
      rfl
    · simp only [List.mem_cons] at hc
      rcases hc with rfl | hc
      · rfl
      · exact ih _ (iter + 1) c hc

theorem xgboost_train_calls (lib : XgbLib) (data : XgbData)
    (opts : List (String × String)) (n_iter : Nat) :
    ∀ c ∈ (xgboost_train lib data opts n_iter).1, isDmatrixSetFloatInfo c = false := by
  intro c hc
  rw [xgboost_train] at hc
  split at hc
  · simp only [List.mem_singleton] at hc
    subst hc
    rfl
  · simp only [] at hc
    split at hc
    · simp only [List.mem_cons] at hc
      rcases hc with rfl | hc
      · rfl
      · exact applyParams_calls lib opts _ c hc
    · simp only [List.mem_cons, List.mem_append] at hc
      rcases hc with rfl | hc | hc
      · rfl
      · exact applyParams_calls lib opts _ c hc
      · exact runUpdates_calls lib (data.sb_dmats.getD 0 0) n_iter _ 0 c hc

/-- C9: on any successful adapter run the only metadata attached to the
created matrix is the label vector under the name `"label"`; the trainer
never attaches metadata; and the trainer's behaviour is entirely independent
of the bundle's weight vector. -/
theorem label_only_metadata (lib : XgbLib) :
    (∀ (sig bgd : TTree) (vars : List String) (sw0 bw0 : Option Float_t) (d : XgbData),
      (ROOTToXGBoostTT lib sig bgd vars sw0 bw0).2 = .ok d →
      (ROOTToXGBoostTT lib sig bgd vars sw0 bw0).1 =
        [.dmatrixCreateFromMat (buildMat sig bgd vars).flatten (sig.n + bgd.n)
           vars.length 0,
         .dmatrixSetFloatInfo lib.dmatHandle "label" d.labels (sig.n + bgd.n)]) ∧
    (∀ (info : DataSetInfo) (type : ETreeType) (d : XgbData),
      (ROOTToXGBoostDS lib info type).2 = .ok d →
      (ROOTToXGBoostDS lib info type).1 =
        [.dmatrixCreateFromMat
            (buildMatDS info.dataset.nVariables (info.dataset.eventCollection type)).flatten
            (d.n_sig + d.n_bgd) info.dataset.nVariables 0,
         .dmatrixSetFloatInfo lib.dmatHandle "label" d.labels (d.n_sig + d.n_bgd)]) ∧
    (∀ (data : XgbData) (opts : List (String × String)) (n_iter : Nat) (c : XgbCall),
      c ∈ (xgboost_train lib data opts n_iter).1 → isDmatrixSetFloatInfo c = false) ∧
    (∀ (data : XgbData) (opts : List (String × String)) (n_iter : Nat)
        (w : List Float_t),
      xgboost_train lib { data with weights := w } opts n_iter =
        xgboost_train lib data opts n_iter) := by
  refine ⟨?_, ?_, ?_, ?_⟩
  · intro sig bgd vars sw0 bw0 d h
    obtain ⟨sw, bw, hsw, hbw, rfl⟩ := ROOTToXGBoostTT_ok h
    exact ROOTToXGBoostTT_ok_trace h
  · intro info type d h
    obtain ⟨ns, nb, hrc, rfl⟩ := ROOTToXGBoostDS_ok h
    exact ROOTToXGBoostDS_ok_trace ns nb hrc h
  · intro data opts n_iter c hc
    exact xgboost_train_calls lib data opts n_iter c hc
  · intro data opts n_iter w
    rfl

/-- C9 witness: the concrete successful run attaches exactly the label
vector; training is unchanged when the weight vector is replaced. -/
theorem label_only_metadata_witness :
    (ROOTToXGBoostTT libOK treeA treeB ["x"] none none).1 =
      [.dmatrixCreateFromMat (buildMat treeA treeB ["x"]).flatten (treeA.n + treeB.n)
         (["x"] : List String).length 0,
       .dmatrixSetFloatInfo libOK.dmatHandle "label" dataAB.labels (treeA.n + treeB.n)] ∧
    isDmatrixSetFloatInfo (XgbCall.boosterCreate [5] 1) = false ∧
    xgboost_train libOK { dataAB with weights := [3, 3, 3, 3, 3] } optsW 2 =
      xgboost_train libOK dataAB optsW 2 :=
  ⟨(label_only_metadata libOK).1 treeA treeB ["x"] none none dataAB
      (by with_unfolding_all decide),
   (label_only_metadata libOK).2.2.1 dataAB optsW 2 (XgbCall.boosterCreate [5] 1)
      (by with_unfolding_all decide),
   (label_only_metadata libOK).2.2.2 dataAB optsW 2 [3, 3, 3, 3, 3]⟩

end BDTBench
